import Mathlib

/-!
# OptimusV2 — formal verification of the specification against the source

Shallow embedding of the parts of the OptimusV2 code-execution service that the
verified claims are about:

* `src/libs/optimus-common/src/types.rs` — the shared data model;
* `src/bins/optimus-worker/src/evaluator.rs` — the pure evaluator `evaluate`;
* `src/bins/optimus-worker/src/engine.rs` — the per-test execution loop
  `execute_job_async` (the Docker engine itself is abstracted as a function
  from a test case to an `Except`-result, mirroring `Result<TestExecutionOutput>`);
* `src/bins/optimus-worker/src/main.rs` — the worker loop's per-job decision
  logic (cancellation pre-check, retry/DLQ decision), modelled as a pure
  function from the job and the observed outcomes to a list of effects;
* `src/bins/optimus-api/src/handlers.rs` — the submission validation and
  test-case renumbering of `submit_job`.

Machine integers (`u32` scores and weights, `u8` retry counters) are modelled
as `Nat` with explicit wrap-around `% 2^32` / `% 2^8` at each arithmetic step,
matching release-build Rust semantics.  Rust `String` is modelled as Lean
`String`; Rust `str::trim` (which strips Unicode `White_Space` characters) is
modelled by `rustTrim`.  The `.expect(...)` panic in the evaluator is modelled
by an `Option` result.
-/

namespace Optimus

/-! ## Data model (types.rs) -/

/-- The `Language` enum from `types.rs`. -/
inductive Language where
  | python
  | java
  | rust
deriving DecidableEq, Repr

/-- The `JobMetadata` struct from `types.rs`.  `attempts` and `max_attempts` are `u8` in
the source; they are modelled as `Nat` with wrap-around applied at the
increment site. -/
structure JobMetadata where
  attempts : Nat
  max_attempts : Nat
  last_failure_reason : Option String
deriving DecidableEq, Repr

/-- The `JobMetadata::default()` impl from `types.rs`. -/
def JobMetadata.default : JobMetadata :=
  { attempts := 0, max_attempts := 3, last_failure_reason := none }

/-- The `TestCase` struct from `types.rs`.  `id` and `weight` are `u32` in the source. -/
structure TestCase where
  id : Nat
  input : String
  expected_output : String
  weight : Nat
deriving DecidableEq, Repr

/-- The `JobRequest` struct from `types.rs`.  The `Uuid` job id is modelled as a `Nat`
(only its identity matters to the verified claims). -/
structure JobRequest where
  id : Nat
  language : Language
  source_code : String
  test_cases : List TestCase
  timeout_ms : Nat
  metadata : JobMetadata
deriving DecidableEq, Repr

/-- The `JobStatus` enum from `types.rs`. -/
inductive JobStatus where
  | queued
  | running
  | completed
  | failed
  | timedOut
  | cancelled
deriving DecidableEq, Repr

/-- The `TestStatus` enum from `types.rs`. -/
inductive TestStatus where
  | passed
  | failed
  | runtimeError
  | timeLimitExceeded
deriving DecidableEq, Repr

/-- The `TestResult` struct from `types.rs`. -/
structure TestResult where
  test_id : Nat
  status : TestStatus
  stdout : String
  stderr : String
  execution_time_ms : Nat
deriving DecidableEq, Repr

/-- The `ExecutionResult` struct from `types.rs`. -/
structure ExecutionResult where
  job_id : Nat
  overall_status : JobStatus
  score : Nat
  max_score : Nat
  results : List TestResult
deriving DecidableEq, Repr

/-- The `TestExecutionOutput` struct from `evaluator.rs`. -/
structure TestExecutionOutput where
  test_id : Nat
  stdout : String
  stderr : String
  execution_time_ms : Nat
  timed_out : Bool
  runtime_error : Bool
deriving DecidableEq, Repr

/-! ## Machine arithmetic -/

/-- The value `2^32`: the modulus of Rust `u32` arithmetic. -/
def u32Mod : Nat := 4294967296

/-- The value `2^8`: the modulus of Rust `u8` arithmetic. -/
def u8Mod : Nat := 256

/-- Wrapping `u32` addition, the release-build semantics of `+`/`+=` on `u32`. -/
def wadd (a b : Nat) : Nat := (a + b) % u32Mod

/-- Source expression `job.test_cases.iter().map(|tc| tc.weight).sum()` — the `u32` sum of all
test-case weights, folded left with wrapping addition as in the source. -/
def sumWeightsU32 (tcs : List TestCase) : Nat :=
  tcs.foldl (fun acc tc => wadd acc tc.weight) 0

/-! ## Rust string trimming

`str::trim` in Rust strips leading and trailing characters satisfying
`char::is_whitespace`, i.e. the Unicode `White_Space` property. -/

/-- Rust `char::is_whitespace`: the Unicode `White_Space` property. -/
def isRustWhitespace (c : Char) : Bool :=
  let n := c.toNat
  (9 ≤ n && n ≤ 13) || n == 32 || n == 133 || n == 160 || n == 5760 ||
  (8192 ≤ n && n ≤ 8202) || n == 8232 || n == 8233 || n == 8239 || n == 8287 ||
  n == 12288

/-- Rust `str::trim`: drop leading and trailing `White_Space` characters. -/
def rustTrim (s : String) : String :=
  String.mk (((s.toList.dropWhile isRustWhitespace).reverse.dropWhile
      isRustWhitespace).reverse)

/-- ASCII whitespace (space, tab, LF, FF, CR), for stating the spec's
"trimming removes leading and trailing ASCII whitespace only". -/
def isAsciiWhitespace (c : Char) : Bool :=
  let n := c.toNat
  n == 32 || n == 9 || n == 10 || n == 12 || n == 13

/-- Trimming as the spec's words describe it: ASCII whitespace only. -/
def asciiTrim (s : String) : String :=
  String.mk (((s.toList.dropWhile isAsciiWhitespace).reverse.dropWhile
      isAsciiWhitespace).reverse)

/-! ## Evaluator (evaluator.rs, `evaluate`) -/

/-- Source expression `job.test_cases.iter().find(|tc| tc.id == output.test_id)`. -/
def findTestCase (tcs : List TestCase) (tid : Nat) : Option TestCase :=
  tcs.find? (fun tc => tc.id == tid)

/-- The loop body of `evaluate` (evaluator.rs lines 61–122), threading the
`total_score` accumulator and the `test_results` vector.  The
`.expect("Test case not found for output")` panic is modelled as `none`. -/
def evaluateGo (tcs : List TestCase) :
    List TestExecutionOutput → Nat → List TestResult → Option (Nat × List TestResult)
  | [], total_score, test_results => some (total_score, test_results)
  | output :: rest, total_score, test_results =>
    match findTestCase tcs output.test_id with
    | none => none
    | some test_case =>
      let status : TestStatus :=
        if output.runtime_error then TestStatus.runtimeError
        else if output.timed_out then TestStatus.timeLimitExceeded
        else if rustTrim output.stdout = rustTrim test_case.expected_output then
          TestStatus.passed
        else TestStatus.failed
      let total_score' :=
        if status = TestStatus.passed then wadd total_score test_case.weight
        else total_score
      evaluateGo tcs rest total_score'
        (test_results ++ [{ test_id := output.test_id, status := status,
                            stdout := output.stdout, stderr := output.stderr,
                            execution_time_ms := output.execution_time_ms }])

/-- Function `evaluate` from `evaluator.rs`: compare each execution output with the
expected output of its test case, accumulate the weighted score, and produce
the final `ExecutionResult`.  `none` models the panic on an output whose
`test_id` matches no test case. -/
def evaluate (job : JobRequest) (outputs : List TestExecutionOutput) :
    Option ExecutionResult :=
  match evaluateGo job.test_cases outputs 0 [] with
  | none => none
  | some (total_score, test_results) =>
    some { job_id := job.id,
           overall_status :=
             if total_score > 0 then JobStatus.completed else JobStatus.failed,
           score := total_score,
           max_score := sumWeightsU32 job.test_cases,
           results := test_results }

/-! ## Spec-side descriptions of the evaluator's per-test classification -/

/-- Per-test classification as the source performs it (Unicode trimming),
stated standalone for relating `evaluate` to the spec sentence. -/
def specStatusUnicode (tc : TestCase) (o : TestExecutionOutput) : TestStatus :=
  if o.runtime_error then TestStatus.runtimeError
  else if o.timed_out then TestStatus.timeLimitExceeded
  else if rustTrim o.stdout = rustTrim tc.expected_output then TestStatus.passed
  else TestStatus.failed

/-- Per-test classification exactly as the claim words it: the comparison
trims ASCII whitespace only. -/
def specStatusAscii (tc : TestCase) (o : TestExecutionOutput) : TestStatus :=
  if o.runtime_error then TestStatus.runtimeError
  else if o.timed_out then TestStatus.timeLimitExceeded
  else if asciiTrim o.stdout = asciiTrim tc.expected_output then TestStatus.passed
  else TestStatus.failed

/-- The mathematical (unbounded) sum of all test-case weights, as the spec's
phrase `the sum of the weights of all test cases` denotes. -/
def specTotalWeight (tcs : List TestCase) : Nat :=
  (tcs.map (fun tc => tc.weight)).sum

/-- One step of the score accumulation, keyed on a produced `TestResult`:
a passed test contributes the weight of its (first) matching test case. -/
def scoreStep (tcs : List TestCase) (total : Nat) (tr : TestResult) : Nat :=
  if tr.status = TestStatus.passed then
    match findTestCase tcs tr.test_id with
    | some tc => wadd total tc.weight
    | none => total
  else total

/-- The (u32) sum of the weights of the recorded tests that passed. -/
def passedWeightSum (tcs : List TestCase) (rs : List TestResult) : Nat :=
  rs.foldl (scoreStep tcs) 0

/-! ## Execution loop (engine.rs, `execute_job_async`)

The Docker engine is abstracted as `engineF : TestCase → Except String
TestExecutionOutput`, mirroring `execute_in_container`'s
`Result<TestExecutionOutput>` (the source passes the test case's `input`, the
job's `source_code` and `timeout_ms`; the abstraction takes the test case and
closes over the rest).  The sequence of cancellation probes
(`is_job_cancelled`, one before each test case) is modelled as `cancelledAt :
Nat → Bool` indexed by the number of tests already executed; `false` covers
both the `Ok(false)` and the `Err(_)` ("continue execution on error") arms of
the source's match. -/

/-- The `for test_case in &job.test_cases` loop of `execute_job_async`
(engine.rs lines 59–116).  The second component records whether the
`break`-on-cancellation arm was taken (observable in the source as the
`Job cancelled - stopping execution` branch). -/
def execLoop (engineF : TestCase → Except String TestExecutionOutput)
    (cancelledAt : Nat → Bool) :
    List TestCase → Nat → List TestExecutionOutput × Bool
  | [], _ => ([], false)
  | test_case :: rest, executed =>
    if cancelledAt executed then ([], true)
    else
      let output : TestExecutionOutput :=
        match engineF test_case with
        | Except.ok o => { o with test_id := test_case.id }
        | Except.error e =>
          { test_id := test_case.id, stdout := "",
            stderr := "Docker execution error: " ++ e,
            execution_time_ms := 0, timed_out := false, runtime_error := true }
      let restRes := execLoop engineF cancelledAt rest (executed + 1)
      (output :: restRes.1, restRes.2)

/-- Function `execute_job_async` from `engine.rs`: run every test case through the
engine, probing the cancellation flag before each one, and collect the raw
outputs. -/
def execute_job_async (job : JobRequest)
    (engineF : TestCase → Except String TestExecutionOutput)
    (cancelledAt : Nat → Bool) : List TestExecutionOutput :=
  (execLoop engineF cancelledAt job.test_cases 0).1

/-- Modelled from the spec: the worker's `executor::execute_docker` function is
called from `main.rs` but its definition is not under `src/` (the shipped
`executor.rs` holds only the earlier `execute_dummy`).  Per the spec (§4.E) it
drives `execute_job_async` and then the evaluator, and — quoting it — `a cancellation observed
mid-job produces an `ExecutionResult` with `overall_status = cancelled`, the
partial results collected so far, and score computed only over
completed-and-passed tests`. -/
def execute_docker (job : JobRequest)
    (engineF : TestCase → Except String TestExecutionOutput)
    (cancelledAt : Nat → Bool) : Option ExecutionResult :=
  match evaluate job (execLoop engineF cancelledAt job.test_cases 0).1 with
  | none => none
  | some result =>
    some (if (execLoop engineF cancelledAt job.test_cases 0).2 then
            { result with overall_status := JobStatus.cancelled }
          else result)

/-! ## Worker per-job decision logic (main.rs, `worker_loop`)

The Redis side effects the worker issues for one popped job are reified as a
list of `WorkerAction`s; the worker then `continue`s with the next job in
every branch. -/

/-- A Redis effect issued by the worker loop. -/
inductive WorkerAction where
  | pushRetryQueue (job : JobRequest)
  | pushDLQ (job : JobRequest)
  | storeResult (result : ExecutionResult)
  | storeStatus (job_id : Nat) (status : JobStatus)
  | publishCompletion (job_id : Nat) (status : JobStatus)
deriving DecidableEq, Repr

/-- Function `store_result_with_metrics` from `redis.rs`: `store_result` writes the
result key and mirrors `overall_status` to the status key, then
`publish_job_completion` publishes a completion event. -/
def storeResultWithMetricsActions (r : ExecutionResult) : List WorkerAction :=
  [WorkerAction.storeResult r,
   WorkerAction.storeStatus r.job_id r.overall_status,
   WorkerAction.publishCompletion r.job_id r.overall_status]

/-- Display tag of a language (`impl fmt::Display for Language`). -/
def langStr : Language → String
  | Language.python => "python"
  | Language.java => "java"
  | Language.rust => "rust"

/-- The `Err` arm of the worker's execution match (main.rs lines 336–403):
increment `attempts` (a `u8`, hence mod 256), record the failure reason, then
either re-enqueue to the retry queue or push to the DLQ and persist a terminal
failed result.  Returns the mutated job together with the issued actions. -/
def handleExecutionError (job : JobRequest) (e : String) :
    JobRequest × List WorkerAction :=
  let job' : JobRequest :=
    { job with metadata :=
        { job.metadata with
            attempts := (job.metadata.attempts + 1) % u8Mod,
            last_failure_reason := some ("Execution error: " ++ e) } }
  if job'.metadata.attempts < job'.metadata.max_attempts then
    (job', [WorkerAction.pushRetryQueue job'])
  else
    (job', WorkerAction.pushDLQ job' ::
      storeResultWithMetricsActions
        { job_id := job.id, overall_status := JobStatus.failed, score := 0,
          max_score := sumWeightsU32 job.test_cases, results := [] })

/-- The body of `worker_loop` for one popped job (main.rs lines 215–448):
language-mismatch DLQ routing, the cancellation pre-check, then the execution
match.  `preCancelled` is the outcome of the pre-execution `is_job_cancelled`
probe (`false` also covers its error arm, which proceeds with execution);
`execOutcome` is what `executor::execute_docker` returned. -/
def processJob (language : Language) (job : JobRequest) (preCancelled : Bool)
    (execOutcome : Except String ExecutionResult) : List WorkerAction :=
  if job.language ≠ language then
    [WorkerAction.pushDLQ
      { job with metadata :=
          { job.metadata with
              last_failure_reason :=
                some ("Language routing error: worker bound to '" ++
                  langStr language ++ "' cannot execute '" ++
                  langStr job.language ++ "' job") } }]
  else if preCancelled then
    storeResultWithMetricsActions
      { job_id := job.id, overall_status := JobStatus.cancelled, score := 0,
        max_score := sumWeightsU32 job.test_cases, results := [] }
  else
    match execOutcome with
    | Except.error e => (handleExecutionError job e).2
    | Except.ok result => storeResultWithMetricsActions result

/-! ## Submission front-end (handlers.rs, `submit_job`) -/

/-- The `TestCaseInput` struct from `handlers.rs` (note: no client-supplied id field is
even deserialized). -/
structure TestCaseInput where
  input : String
  expected_output : String
  weight : Nat
deriving DecidableEq, Repr

/-- The `SubmitRequest` struct from `handlers.rs`. -/
structure SubmitRequest where
  language : Language
  source_code : String
  test_cases : List TestCaseInput
  timeout_ms : Nat
deriving DecidableEq, Repr

/-- The rejection reasons of `submit_job`'s validation chain (each is a 400
response in the source). -/
inductive RejectReason where
  | noTestCases
  | tooManyTestCases
  | sourceCodeTooLarge
  | emptySourceCode
  | inputTooLarge (idx : Nat)
  | outputTooLarge (idx : Nat)
  | invalidTimeout
deriving DecidableEq, Repr

/-- UTF-8 byte size of a character, as Rust `String::len` counts it. -/
def charUtf8Size (c : Char) : Nat :=
  let v := c.toNat
  if v < 128 then 1 else if v < 2048 then 2 else if v < 65536 then 3 else 4

/-- Rust `String::len`/`str::len`: the UTF-8 byte length. -/
def utf8Len (s : String) : Nat :=
  s.data.foldl (fun n c => n + charUtf8Size c) 0

/-- The per-test size check loop of `submit_job` (handlers.rs lines 140–184):
for each test case in order, first the input size, then the expected-output
size, against `MAX_INPUT_SIZE = MAX_EXPECTED_OUTPUT_SIZE = 10_000` bytes. -/
def firstSizeViolation : List TestCaseInput → Nat → Option RejectReason
  | [], _ => none
  | tc :: rest, idx =>
    if utf8Len tc.input > 10000 then some (RejectReason.inputTooLarge idx)
    else if utf8Len tc.expected_output > 10000 then
      some (RejectReason.outputTooLarge idx)
    else firstSizeViolation rest (idx + 1)

/-- The validation chain of `submit_job` (handlers.rs lines 68–201), in source
order: non-empty test cases, `MAX_TEST_CASES = 100`, `MAX_SOURCE_CODE_SIZE =
100_000` bytes, non-whitespace source, per-test sizes, and
`timeout_ms ∈ [1, 60_000]`. -/
def validateSubmit (payload : SubmitRequest) : Option RejectReason :=
  if payload.test_cases.isEmpty then some RejectReason.noTestCases
  else if payload.test_cases.length > 100 then some RejectReason.tooManyTestCases
  else if utf8Len payload.source_code > 100000 then
    some RejectReason.sourceCodeTooLarge
  else if rustTrim payload.source_code = "" then some RejectReason.emptySourceCode
  else
    match firstSizeViolation payload.test_cases 0 with
    | some r => some r
    | none =>
      if payload.timeout_ms = 0 ∨ payload.timeout_ms > 60000 then
        some RejectReason.invalidTimeout
      else none

/-- Source expression `payload.test_cases.into_iter().enumerate().map(...)` from `submit_job`
(handlers.rs lines 203–214): renumber test cases with `id = idx + 1`. -/
def toTestCases (tcs : List TestCaseInput) : List TestCase :=
  (List.enum tcs).map (fun p =>
    { id := p.1 + 1, input := p.2.input,
      expected_output := p.2.expected_output, weight := p.2.weight })

/-- Outcome of the `submit_job` handler: `created` is the 201 response (job
enqueued), `badRequest` the 400 responses, `serverError` the 500 on enqueue
failure. -/
inductive SubmitOutcome where
  | created (job : JobRequest)
  | badRequest (r : RejectReason)
  | serverError
deriving DecidableEq, Repr

/-- Function `submit_job` from `handlers.rs` as a pure function: the minted `Uuid` is
passed in as `job_id`, and `pushOk` is whether `redis::push_job` succeeded. -/
def submit_job (job_id : Nat) (payload : SubmitRequest) (pushOk : Bool) :
    SubmitOutcome :=
  match validateSubmit payload with
  | some r => SubmitOutcome.badRequest r
  | none =>
    let job : JobRequest :=
      { id := job_id, language := payload.language,
        source_code := payload.source_code,
        test_cases := toTestCases payload.test_cases,
        timeout_ms := payload.timeout_ms,
        metadata := JobMetadata.default }
    if pushOk then SubmitOutcome.created job else SubmitOutcome.serverError

/-- HTTP status code of a `submit_job` outcome. -/
def submitStatus : SubmitOutcome → Nat
  | SubmitOutcome.created _ => 201
  | SubmitOutcome.badRequest _ => 400
  | SubmitOutcome.serverError => 500

/-! ## Concrete fixtures used by witnesses and counterexamples -/

/-- A job with a single zero-weight test case. -/
def jobC1w : JobRequest :=
  { id := 1, language := Language.python, source_code := "x",
    test_cases := [{ id := 1, input := "", expected_output := "x", weight := 0 }],
    timeout_ms := 5000, metadata := JobMetadata.default }

/-- An output that passes `jobC1w`'s only test case. -/
def outC1w : TestExecutionOutput :=
  { test_id := 1, stdout := "x", stderr := "", execution_time_ms := 5,
    timed_out := false, runtime_error := false }

/-- What `evaluate jobC1w [outC1w]` returns: the test passed, the score is 0. -/
def resC1w : ExecutionResult :=
  { job_id := 1, overall_status := JobStatus.failed, score := 0, max_score := 0,
    results := [{ test_id := 1, status := TestStatus.passed, stdout := "x",
                  stderr := "", execution_time_ms := 5 }] }

/-! ## Helper lemmas about the evaluator loop -/

/-- Master characterisation of `evaluateGo`: on success, the accumulated
results extend the accumulator with one `TestResult` per output, classified as
the source's nested conditional does, and the final score is the left fold of
`scoreStep` over the new results starting from the incoming accumulator. -/
theorem evaluateGo_spec (tcs : List TestCase) :
    ∀ (outputs : List TestExecutionOutput) (score : Nat) (acc : List TestResult)
      (s : Nat) (trs : List TestResult),
      evaluateGo tcs outputs score acc = some (s, trs) →
      ∃ newrs, trs = acc ++ newrs ∧
        List.Forall₂ (fun (o : TestExecutionOutput) (tr : TestResult) =>
          ∃ tc, findTestCase tcs o.test_id = some tc ∧
            tr = { test_id := o.test_id, status := specStatusUnicode tc o,
                   stdout := o.stdout, stderr := o.stderr,
                   execution_time_ms := o.execution_time_ms }) outputs newrs ∧
        s = newrs.foldl (scoreStep tcs) score := by
  intro outputs
  induction outputs with
  | nil =>
    intro score acc s trs h
    simp only [evaluateGo, Option.some.injEq, Prod.mk.injEq] at h
    exact ⟨[], by simp [h.2.symm], List.Forall₂.nil, by simp [h.1.symm]⟩
  | cons o rest ih =>
    intro score acc s trs h
    cases hfind : findTestCase tcs o.test_id with
    | none => simp [evaluateGo, hfind] at h
    | some tc =>
      simp only [evaluateGo, hfind] at h
      obtain ⟨newrs, htrs, hfa, hs⟩ := ih _ _ _ _ h
      refine ⟨({ test_id := o.test_id, status := specStatusUnicode tc o,
                 stdout := o.stdout, stderr := o.stderr,
                 execution_time_ms := o.execution_time_ms } : TestResult) :: newrs,
              ?_, ?_, ?_⟩
      · rw [htrs]; simp [specStatusUnicode]
      · exact List.Forall₂.cons ⟨tc, hfind, rfl⟩ hfa
      · simp only [List.foldl_cons]
        rw [hs]
        congr 1
        simp [scoreStep, specStatusUnicode, hfind]

/-- Lemma: `evaluateGo` succeeds whenever every output's `test_id` matches some test
case: the `none` (panic) branch is unreachable. -/
theorem evaluateGo_total (tcs : List TestCase) :
    ∀ (outputs : List TestExecutionOutput) (score : Nat) (acc : List TestResult),
      (∀ o ∈ outputs, ∃ tc ∈ tcs, tc.id = o.test_id) →
      ∃ p, evaluateGo tcs outputs score acc = some p := by
  intro outputs
  induction outputs with
  | nil => intro score acc _; exact ⟨(score, acc), rfl⟩
  | cons o rest ih =>
    intro score acc h
    obtain ⟨tc, htc, hid⟩ := h o (by simp)
    cases hfind : findTestCase tcs o.test_id with
    | none =>
      rw [findTestCase, List.find?_eq_none] at hfind
      exact absurd (by simp [hid]) (hfind tc htc)
    | some tc' =>
      obtain ⟨p, hp⟩ := ih _ _ (fun o' ho' => h o' (by simp [ho']))
      exact ⟨p, by simp only [evaluateGo, hfind]; exact hp⟩

/-! ## C1 — overall status is `completed` iff the score is positive -/

/-- Claim C1. For every job and outputs the evaluator accepts, the resulting
`ExecutionResult` has `overall_status = completed` if and only if `score > 0`,
and `overall_status = failed` exactly when `score = 0`; in particular a job
whose every executed test passed but whose weights are all zero yields
`failed`. -/
theorem evaluate_completed_iff_score_pos (job : JobRequest)
    (outputs : List TestExecutionOutput) (r : ExecutionResult)
    (h : evaluate job outputs = some r) :
    (r.overall_status = JobStatus.completed ↔ 0 < r.score) ∧
    (r.overall_status = JobStatus.failed ↔ r.score = 0) := by
  unfold evaluate at h
  cases hgo : evaluateGo job.test_cases outputs 0 [] with
  | none => rw [hgo] at h; cases h
  | some p =>
    rw [hgo] at h
    obtain ⟨s, trs⟩ := p
    simp only [Option.some.injEq] at h
    subst h
    by_cases hs : s > 0 <;> simp [hs] <;> omega

/-- Witness for C1: a job whose only test case passes with weight 0 is
evaluated to `failed` with score 0. -/
theorem evaluate_completed_iff_score_pos_witness :
    evaluate jobC1w [outC1w] = some resC1w ∧
    ((resC1w.overall_status = JobStatus.completed ↔ 0 < resC1w.score) ∧
     (resC1w.overall_status = JobStatus.failed ↔ resC1w.score = 0)) :=
  ⟨by decide, evaluate_completed_iff_score_pos jobC1w [outC1w] resC1w (by decide)⟩

/-! ## C10 — the missing-test-case branch is unreachable under the 1-1 guarantee -/

/-- Claim C10. Under the caller-guaranteed correspondence — every output's
`test_id` matches the id of some test case of the job — the evaluator's
missing-test-case error branch (the modelled `none`) is unreachable and
`evaluate` returns a result for all inputs. -/
theorem evaluate_total_of_matching_ids (job : JobRequest)
    (outputs : List TestExecutionOutput)
    (h : ∀ o ∈ outputs, ∃ tc ∈ job.test_cases, tc.id = o.test_id) :
    ∃ r, evaluate job outputs = some r := by
  obtain ⟨⟨s, trs⟩, hp⟩ := evaluateGo_total job.test_cases outputs 0 [] h
  exact ⟨_, by rw [evaluate, hp]⟩

/-- A job and outputs in 1-1 correspondence for the C10 witness. -/
def jobC10 : JobRequest :=
  { id := 10, language := Language.java, source_code := "x",
    test_cases := [{ id := 1, input := "a", expected_output := "a", weight := 3 },
                   { id := 2, input := "b", expected_output := "c", weight := 4 }],
    timeout_ms := 5000, metadata := JobMetadata.default }

/-- Outputs for the C10 witness, one per test case of `jobC10`. -/
def outsC10 : List TestExecutionOutput :=
  [{ test_id := 2, stdout := "c", stderr := "", execution_time_ms := 5,
     timed_out := false, runtime_error := false },
   { test_id := 1, stdout := "a", stderr := "", execution_time_ms := 5,
     timed_out := false, runtime_error := false }]

/-- Witness for C10: on matching ids, `evaluate` produces a result. -/
theorem evaluate_total_of_matching_ids_witness :
    ∃ r, evaluate jobC10 outsC10 = some r :=
  evaluate_total_of_matching_ids jobC10 outsC10 (by decide)

/-! ## C3 — u32 wrap-around breaks `score ≤ max_score` (code bug) -/

/-- A job whose total weight is `2^32`, overflowing `u32` summation. -/
def jobC3 : JobRequest :=
  { id := 3, language := Language.python, source_code := "x",
    test_cases := [{ id := 1, input := "", expected_output := "x",
                     weight := 4294967295 },
                   { id := 2, input := "", expected_output := "y", weight := 1 }],
    timeout_ms := 5000, metadata := JobMetadata.default }

/-- An output passing `jobC3`'s first (weight `2^32 - 1`) test case only. -/
def outC3 : TestExecutionOutput :=
  { test_id := 1, stdout := "x", stderr := "", execution_time_ms := 1,
    timed_out := false, runtime_error := false }

/-- What the evaluator returns on `jobC3`: the wrapped `max_score` is 0 while
the score of the single passed test is `4294967295`. -/
def resC3 : ExecutionResult :=
  { job_id := 3, overall_status := JobStatus.completed, score := 4294967295,
    max_score := 0,
    results := [{ test_id := 1, status := TestStatus.passed, stdout := "x",
                  stderr := "", execution_time_ms := 1 }] }

/-- Claim C3 (code bug). With test-case weights `[2^32 - 1, 1]` and only the
first test executed and passed, the release-build `u32` accumulation wraps:
`evaluate` returns `max_score = 0` and `score = 4294967295`, so
`score ≤ max_score` fails and `max_score` is not the sum `2^32` of the
weights, contradicting the claimed invariant (and the evaluator's own doc
comment). -/
theorem evaluate_u32_overflow_violates_score_bound :
    evaluate jobC3 [outC3] = some resC3 ∧
    resC3.max_score < resC3.score ∧
    specTotalWeight jobC3.test_cases = 4294967296 ∧
    resC3.max_score ≠ specTotalWeight jobC3.test_cases := by decide

/-! ## C2 — per-test classification; trimming is Unicode, not ASCII-only -/

/-- Test case for the C2 counterexample: expected output `"hello"`. -/
def tcC2 : TestCase :=
  { id := 1, input := "in", expected_output := "hello", weight := 10 }

/-- Job holding `tcC2`. -/
def jobC2 : JobRequest :=
  { id := 2, language := Language.python, source_code := "x",
    test_cases := [tcC2], timeout_ms := 5000, metadata := JobMetadata.default }

/-- Output whose stdout is `"hello"` followed by U+00A0 (no-break space): a
Unicode whitespace character that is not ASCII whitespace. -/
def outC2 : TestExecutionOutput :=
  { test_id := 1, stdout := "hello\u00A0", stderr := "", execution_time_ms := 5,
    timed_out := false, runtime_error := false }

/-- What the evaluator returns on `jobC2`/`outC2`: the test **passes**. -/
def resC2 : ExecutionResult :=
  { job_id := 2, overall_status := JobStatus.completed, score := 10,
    max_score := 10,
    results := [{ test_id := 1, status := TestStatus.passed,
                  stdout := "hello\u00A0", stderr := "",
                  execution_time_ms := 5 }] }

/-- Claim C2 (counterexample). For the stdout `"hello" ++ U+00A0` against
expected `"hello"` (no runtime error, no timeout), the code classifies the
test `passed` — Rust `str::trim` strips the no-break space — although the
ASCII-only-trimmed strings differ, so the claim's rule — passed exactly when
the ASCII-whitespace-trimmed stdout equals the ASCII-whitespace-trimmed
expected output — is false on the code. -/
theorem evaluate_trim_not_ascii_counterexample :
    evaluate jobC2 [outC2] = some resC2 ∧
    resC2.results.map (fun tr => tr.status) = [TestStatus.passed] ∧
    outC2.runtime_error = false ∧ outC2.timed_out = false ∧
    asciiTrim outC2.stdout ≠ asciiTrim tcC2.expected_output ∧
    specStatusAscii tcC2 outC2 = TestStatus.failed := by decide

/-- Claim C2 (amended). For every output processed by the evaluator, the
recorded per-test status is classified with the claimed precedence —
`runtime_error`, then `time_limit_exceeded`, then the trimmed comparison —
where trimming removes leading and trailing **Unicode whitespace**
(`White_Space` property, as Rust `str::trim` does), not ASCII whitespace
only. -/
theorem evaluate_classifies_with_unicode_trim (job : JobRequest)
    (outputs : List TestExecutionOutput) (r : ExecutionResult)
    (h : evaluate job outputs = some r) :
    List.Forall₂ (fun (o : TestExecutionOutput) (tr : TestResult) =>
      ∃ tc, findTestCase job.test_cases o.test_id = some tc ∧
        tr.test_id = o.test_id ∧ tr.status = specStatusUnicode tc o)
      outputs r.results := by
  unfold evaluate at h
  cases hgo : evaluateGo job.test_cases outputs 0 [] with
  | none => rw [hgo] at h; cases h
  | some p =>
    rw [hgo] at h
    obtain ⟨s, trs⟩ := p
    simp only [Option.some.injEq] at h
    subst h
    obtain ⟨newrs, htrs, hfa, -⟩ := evaluateGo_spec job.test_cases outputs 0 [] s trs hgo
    simp only [List.nil_append] at htrs
    subst htrs
    exact hfa.imp (fun {o tr} hp => by
      obtain ⟨tc, hfind, htr⟩ := hp
      exact ⟨tc, hfind, by rw [htr], by rw [htr]⟩)

/-- Witness for the amended C2, at the `jobC2`/`outC2` input. -/
theorem evaluate_classifies_with_unicode_trim_witness :
    evaluate jobC2 [outC2] = some resC2 ∧
    List.Forall₂ (fun (o : TestExecutionOutput) (tr : TestResult) =>
      ∃ tc, findTestCase jobC2.test_cases o.test_id = some tc ∧
        tr.test_id = o.test_id ∧ tr.status = specStatusUnicode tc o)
      [outC2] resC2.results :=
  ⟨by decide,
   evaluate_classifies_with_unicode_trim jobC2 [outC2] resC2 (by decide)⟩

/-! ## C4 — mid-job cancellation yields a cancelled partial result -/

/-- Claim C4. When the execution loop observes the cancellation flag mid-job
(after at least one test case has executed), the resulting `ExecutionResult`
has `overall_status = cancelled`, its `results` correspond one-to-one, in
order, to the partial outputs collected before the cancellation was observed,
and its `score` is the (u32) sum of the weights of the collected tests that
passed. -/
theorem cancelled_mid_job_partial_result (job : JobRequest)
    (engineF : TestCase → Except String TestExecutionOutput)
    (cancelledAt : Nat → Bool) (r : ExecutionResult)
    (hr : execute_docker job engineF cancelledAt = some r)
    (hobs : (execLoop engineF cancelledAt job.test_cases 0).2 = true)
    (_hex : 0 < (execLoop engineF cancelledAt job.test_cases 0).1.length) :
    r.overall_status = JobStatus.cancelled ∧
    List.Forall₂ (fun (o : TestExecutionOutput) (tr : TestResult) =>
        tr.test_id = o.test_id ∧ tr.stdout = o.stdout ∧ tr.stderr = o.stderr)
      (execLoop engineF cancelledAt job.test_cases 0).1 r.results ∧
    r.score = passedWeightSum job.test_cases r.results := by
  unfold execute_docker at hr
  cases heval : evaluate job (execLoop engineF cancelledAt job.test_cases 0).1 with
  | none => rw [heval] at hr; cases hr
  | some r0 =>
    rw [heval, hobs] at hr
    simp only [if_true, Option.some.injEq] at hr
    subst hr
    unfold evaluate at heval
    cases hgo : evaluateGo job.test_cases
        (execLoop engineF cancelledAt job.test_cases 0).1 0 [] with
    | none => rw [hgo] at heval; cases heval
    | some p =>
      rw [hgo] at heval
      obtain ⟨s, trs⟩ := p
      simp only [Option.some.injEq] at heval
      subst heval
      obtain ⟨newrs, htrs, hfa, hs⟩ :=
        evaluateGo_spec job.test_cases _ 0 [] s trs hgo
      simp only [List.nil_append] at htrs
      subst htrs
      refine ⟨rfl, ?_, ?_⟩
      · exact hfa.imp (fun {o tr} hp => by
          obtain ⟨tc, -, htr⟩ := hp
          exact ⟨by rw [htr], by rw [htr], by rw [htr]⟩)
      · exact hs

/-- Job for the C4 witness: two echo test cases with weights 7 and 9. -/
def jobC4 : JobRequest :=
  { id := 4, language := Language.rust, source_code := "x",
    test_cases := [{ id := 1, input := "a", expected_output := "a", weight := 7 },
                   { id := 2, input := "b", expected_output := "b", weight := 9 }],
    timeout_ms := 5000, metadata := JobMetadata.default }

/-- Echo engine for the C4 witness: stdout is the test case's input. -/
def engC4 : TestCase → Except String TestExecutionOutput :=
  fun tc => Except.ok { test_id := 0, stdout := tc.input, stderr := "",
                        execution_time_ms := 5, timed_out := false,
                        runtime_error := false }

/-- Cancellation trace for the C4 witness: the flag is observed at the probe
before the second test case (after one test has executed). -/
def cancC4 : Nat → Bool := fun k => k == 1

/-- What `execute_docker` persists for the C4 witness run. -/
def resC4 : ExecutionResult :=
  { job_id := 4, overall_status := JobStatus.cancelled, score := 7,
    max_score := 16,
    results := [{ test_id := 1, status := TestStatus.passed, stdout := "a",
                  stderr := "", execution_time_ms := 5 }] }

/-- Witness for C4: a cancellation observed after the first of two tests. -/
theorem cancelled_mid_job_partial_result_witness :
    execute_docker jobC4 engC4 cancC4 = some resC4 ∧
    (execLoop engC4 cancC4 jobC4.test_cases 0).2 = true ∧
    0 < (execLoop engC4 cancC4 jobC4.test_cases 0).1.length ∧
    (resC4.overall_status = JobStatus.cancelled ∧
     List.Forall₂ (fun (o : TestExecutionOutput) (tr : TestResult) =>
         tr.test_id = o.test_id ∧ tr.stdout = o.stdout ∧ tr.stderr = o.stderr)
       (execLoop engC4 cancC4 jobC4.test_cases 0).1 resC4.results ∧
     resC4.score = passedWeightSum jobC4.test_cases resC4.results) :=
  ⟨by decide, by decide, by decide,
   cancelled_mid_job_partial_result jobC4 engC4 cancC4 resC4
     (by decide) (by decide) (by decide)⟩

/-! ## C5 — engine-level errors become per-test runtime errors (corrected) -/

/-- Job for the C5 counterexample: a single test case. -/
def jobC5 : JobRequest :=
  { id := 5, language := Language.python, source_code := "x",
    test_cases := [{ id := 1, input := "", expected_output := "out", weight := 10 }],
    timeout_ms := 5000, metadata := JobMetadata.default }

/-- An engine that fails with an infrastructure error on every test. -/
def engErrC5 : TestCase → Except String TestExecutionOutput :=
  fun _ => Except.error ("boom")

/-- No cancellation is ever observed. -/
def noCancelC5 : Nat → Bool := fun _ => false

/-- The scored result the pipeline persists for the failed-engine run. -/
def resC5 : ExecutionResult :=
  { job_id := 5, overall_status := JobStatus.failed, score := 0, max_score := 10,
    results := [{ test_id := 1, status := TestStatus.runtimeError, stdout := "",
                  stderr := "Docker execution error: boom",
                  execution_time_ms := 0 }] }

/-- Claim C5 (counterexample). When the engine returns an engine-level error for
`jobC5`'s only test case, `execute_job_async` (engine.rs lines 86–99) records
a per-test output with `runtime_error = true`, and the attempt continues into
evaluation, producing a per-test result with status `runtime_error` and a
scored, persisted `ExecutionResult` — contradicting the claim that no such
per-test result is recorded and that the attempt halts into the retry/DLQ
decision. -/
theorem engine_error_recorded_as_runtime_error_counterexample :
    execute_job_async jobC5 engErrC5 noCancelC5 =
      [{ test_id := 1, stdout := "", stderr := "Docker execution error: boom",
         execution_time_ms := 0, timed_out := false, runtime_error := true }] ∧
    evaluate jobC5 (execute_job_async jobC5 engErrC5 noCancelC5) = some resC5 ∧
    resC5.results.map (fun tr => tr.status) = [TestStatus.runtimeError] := by
  decide

/-- Claim C5 (amended). If the engine returns an engine-level (infrastructure)
error while executing a test case, the execution loop converts it into a
`TestExecutionOutput` with `runtime_error = true` and a stderr naming the
Docker execution error, and continues with the remaining test cases — one
output per test case — so the attempt proceeds to normal evaluation rather
than halting into the retry/DLQ decision. -/
theorem engine_error_becomes_runtime_error_output (tcs : List TestCase)
    (engineF : TestCase → Except String TestExecutionOutput)
    (cancelledAt : Nat → Bool) (k : Nat)
    (hnc : ∀ n, cancelledAt n = false) :
    ((execLoop engineF cancelledAt tcs k).1.length = tcs.length) ∧
    (∀ i (hi : i < tcs.length) (e : String),
      engineF (tcs.get ⟨i, hi⟩) = Except.error e →
      ((execLoop engineF cancelledAt tcs k).1)[i]? =
        some { test_id := (tcs.get ⟨i, hi⟩).id, stdout := "",
               stderr := "Docker execution error: " ++ e,
               execution_time_ms := 0, timed_out := false,
               runtime_error := true }) := by
  induction tcs generalizing k with
  | nil =>
    refine ⟨by simp [execLoop], ?_⟩
    intro i hi
    exact absurd hi (by simp)
  | cons tc rest ih =>
    have hstep : execLoop engineF cancelledAt (tc :: rest) k =
        ((match engineF tc with
          | Except.ok o => { o with test_id := tc.id }
          | Except.error e =>
            { test_id := tc.id, stdout := "",
              stderr := "Docker execution error: " ++ e,
              execution_time_ms := 0, timed_out := false,
              runtime_error := true }) ::
            (execLoop engineF cancelledAt rest (k + 1)).1,
         (execLoop engineF cancelledAt rest (k + 1)).2) := by
      simp [execLoop, hnc k]
    constructor
    · rw [hstep]
      simp only [List.length_cons]
      rw [(ih (k + 1)).1]
    · intro i hi e he
      rw [hstep]
      cases i with
      | zero =>
        have he' : engineF tc = Except.error e := he
        simp [he']
      | succ j =>
        simp only [List.getElem?_cons_succ]
        exact (ih (k + 1)).2 j (Nat.lt_of_succ_lt_succ hi) e he

/-- Witness for the amended C5, on `jobC5`'s test cases with the erring
engine. -/
theorem engine_error_becomes_runtime_error_output_witness :
    ((execLoop engErrC5 noCancelC5 jobC5.test_cases 0).1.length
        = jobC5.test_cases.length) ∧
    ((execLoop engErrC5 noCancelC5 jobC5.test_cases 0).1)[0]? =
      some { test_id := 1, stdout := "",
             stderr := "Docker execution error: boom", execution_time_ms := 0,
             timed_out := false, runtime_error := true } :=
  ⟨(engine_error_becomes_runtime_error_output jobC5.test_cases engErrC5
      noCancelC5 0 (fun _ => rfl)).1,
   (engine_error_becomes_runtime_error_output jobC5.test_cases engErrC5
      noCancelC5 0 (fun _ => rfl)).2 0 (by decide) "boom" rfl⟩

/-! ## C6 — retry/DLQ decision after an engine-level error -/

/-- Claim C6. When a job attempt ends with an engine-level error `e`, the worker
increments `metadata.attempts` (a `u8`), records
`metadata.last_failure_reason`, and — looking at the incremented value — either
pushes the job to the retry queue (persisting no result) or pushes it to the
DLQ and persists a terminal failed result with score 0, `max_score` the (u32)
sum of all test-case weights, and empty `results`.  The final conjunct ties
this to the worker loop: the `Err` arm of the execution match takes exactly
this path. -/
theorem worker_engine_error_retry_dlq (job : JobRequest) (e : String) :
    ((handleExecutionError job e).1.metadata.attempts
        = (job.metadata.attempts + 1) % u8Mod) ∧
    ((handleExecutionError job e).1.metadata.max_attempts
        = job.metadata.max_attempts) ∧
    ((handleExecutionError job e).1.metadata.last_failure_reason
        = some ("Execution error: " ++ e)) ∧
    ((job.metadata.attempts + 1) % u8Mod < job.metadata.max_attempts →
      (handleExecutionError job e).2 =
        [WorkerAction.pushRetryQueue (handleExecutionError job e).1] ∧
      ∀ res, WorkerAction.storeResult res ∉ (handleExecutionError job e).2) ∧
    (¬ (job.metadata.attempts + 1) % u8Mod < job.metadata.max_attempts →
      (handleExecutionError job e).2 =
        WorkerAction.pushDLQ (handleExecutionError job e).1 ::
          storeResultWithMetricsActions
            { job_id := job.id, overall_status := JobStatus.failed, score := 0,
              max_score := sumWeightsU32 job.test_cases, results := [] }) ∧
    (∀ language, job.language = language →
      processJob language job false (Except.error e)
        = (handleExecutionError job e).2) := by
  refine ⟨?_, ?_, ?_, ?_, ?_, ?_⟩
  · by_cases hlt : (job.metadata.attempts + 1) % u8Mod < job.metadata.max_attempts <;>
      simp [handleExecutionError, hlt]
  · by_cases hlt : (job.metadata.attempts + 1) % u8Mod < job.metadata.max_attempts <;>
      simp [handleExecutionError, hlt]
  · by_cases hlt : (job.metadata.attempts + 1) % u8Mod < job.metadata.max_attempts <;>
      simp [handleExecutionError, hlt]
  · intro hlt
    refine ⟨by simp [handleExecutionError, hlt], ?_⟩
    intro res
    simp [handleExecutionError, hlt]
  · intro hlt
    simp [handleExecutionError, hlt]
  · intro language hlang
    simp [processJob, hlang]

/-- Job for the C6 witness, first attempt (`attempts = 0`, budget 3). -/
def jobC6a : JobRequest :=
  { id := 61, language := Language.python, source_code := "x",
    test_cases := [{ id := 1, input := "", expected_output := "o", weight := 5 }],
    timeout_ms := 5000,
    metadata := { attempts := 0, max_attempts := 3, last_failure_reason := none } }

/-- Job for the C6 witness, last attempt (`attempts = 2`, budget 3). -/
def jobC6b : JobRequest :=
  { id := 62, language := Language.python, source_code := "x",
    test_cases := [{ id := 1, input := "", expected_output := "o", weight := 5 }],
    timeout_ms := 5000,
    metadata := { attempts := 2, max_attempts := 3,
                  last_failure_reason := some ("Execution error: earlier") } }

/-- Witness for C6: the retry branch on a first attempt and the DLQ branch on
an exhausted budget. -/
theorem worker_engine_error_retry_dlq_witness :
    ((handleExecutionError jobC6a ("boom")).2 =
      [WorkerAction.pushRetryQueue (handleExecutionError jobC6a ("boom")).1]) ∧
    ((handleExecutionError jobC6b ("boom")).2 =
      WorkerAction.pushDLQ (handleExecutionError jobC6b ("boom")).1 ::
        storeResultWithMetricsActions
          { job_id := jobC6b.id, overall_status := JobStatus.failed, score := 0,
            max_score := sumWeightsU32 jobC6b.test_cases, results := [] }) :=
  ⟨((worker_engine_error_retry_dlq jobC6a ("boom")).2.2.2.1 (by decide)).1,
   (worker_engine_error_retry_dlq jobC6b ("boom")).2.2.2.2.1 (by decide)⟩

/-! ## C7 — cancellation observed at the pre-check -/

/-- Claim C7. If the cancellation flag is observed for a job at the worker's
pre-execution check, the worker (for a correctly routed job) stores a terminal
result with `overall_status = cancelled`, `score = 0`, `max_score` the (u32)
sum of all the job's test-case weights and empty `results`, mirrors the status
key, and publishes a completion event — and issues nothing else before
continuing with the next job. -/
theorem worker_precancelled_writes_cancelled_result (language : Language)
    (job : JobRequest) (execOutcome : Except String ExecutionResult)
    (hlang : job.language = language) :
    processJob language job true execOutcome =
      [WorkerAction.storeResult
         { job_id := job.id, overall_status := JobStatus.cancelled, score := 0,
           max_score := sumWeightsU32 job.test_cases, results := [] },
       WorkerAction.storeStatus job.id JobStatus.cancelled,
       WorkerAction.publishCompletion job.id JobStatus.cancelled] := by
  simp [processJob, hlang, storeResultWithMetricsActions]

/-- Job for the C7 witness. -/
def jobC7 : JobRequest :=
  { id := 7, language := Language.java, source_code := "x",
    test_cases := [{ id := 1, input := "", expected_output := "o", weight := 5 },
                   { id := 2, input := "", expected_output := "p", weight := 6 }],
    timeout_ms := 5000, metadata := JobMetadata.default }

/-- Witness for C7, on a Java-bound worker popping `jobC7` with the flag set. -/
theorem worker_precancelled_writes_cancelled_result_witness :
    processJob Language.java jobC7 true
        (Except.error ("never reached")) =
      [WorkerAction.storeResult
         { job_id := jobC7.id, overall_status := JobStatus.cancelled, score := 0,
           max_score := sumWeightsU32 jobC7.test_cases, results := [] },
       WorkerAction.storeStatus jobC7.id JobStatus.cancelled,
       WorkerAction.publishCompletion jobC7.id JobStatus.cancelled] :=
  worker_precancelled_writes_cancelled_result Language.java jobC7
    (Except.error ("never reached")) rfl

/-! ## Helper lemmas for the submission front-end -/

/-- If no test case violates the 10 000-byte limits, the size-check loop finds
no violation. -/
theorem firstSizeViolation_none (l : List TestCaseInput)
    (h : ∀ tc ∈ l, utf8Len tc.input ≤ 10000 ∧ utf8Len tc.expected_output ≤ 10000) :
    ∀ k, firstSizeViolation l k = none := by
  induction l with
  | nil => intro k; rfl
  | cons tc rest ih =>
    intro k
    obtain ⟨h1, h2⟩ := h tc (by simp)
    rw [firstSizeViolation, if_neg (by omega), if_neg (by omega)]
    exact ih (fun tc' htc' => h tc' (by simp [htc'])) (k + 1)

/-- If some test case violates a 10 000-byte limit, the size-check loop
reports a violation (possibly an earlier test case's). -/
theorem firstSizeViolation_some (l : List TestCaseInput)
    (h : ∃ tc ∈ l, 10000 < utf8Len tc.input ∨ 10000 < utf8Len tc.expected_output) :
    ∀ k, ∃ r, firstSizeViolation l k = some r := by
  induction l with
  | nil => simp at h
  | cons tc rest ih =>
    intro k
    by_cases hin : 10000 < utf8Len tc.input
    · exact ⟨_, by rw [firstSizeViolation, if_pos hin]⟩
    · by_cases hout : 10000 < utf8Len tc.expected_output
      · exact ⟨_, by rw [firstSizeViolation, if_neg hin, if_pos hout]⟩
      · obtain ⟨tc', htc', hv⟩ := h
        rcases List.mem_cons.mp htc' with heq | hmem
        · subst heq
          cases hv with
          | inl h => exact absurd h hin
          | inr h => exact absurd h hout
        · obtain ⟨r, hr⟩ := ih ⟨tc', hmem, hv⟩ (k + 1)
          exact ⟨r, by rw [firstSizeViolation, if_neg hin, if_neg hout]; exact hr⟩

/-- The test-case renumbering of `submit_job`, characterised over an arbitrary
enumeration start: ids are consecutive from `n + 1` and the payload fields are
preserved in order. -/
theorem enumFrom_toTestCases (l : List TestCaseInput) : ∀ n : Nat,
    ((((List.enumFrom n l).map (fun p =>
        ({ id := p.1 + 1, input := p.2.input,
           expected_output := p.2.expected_output,
           weight := p.2.weight } : TestCase))).map (fun tc => tc.id)
          = List.range' (n + 1) l.length) ∧
     (((List.enumFrom n l).map (fun p =>
        ({ id := p.1 + 1, input := p.2.input,
           expected_output := p.2.expected_output,
           weight := p.2.weight } : TestCase))).map (fun tc => tc.input)
          = l.map (fun tc => tc.input)) ∧
     (((List.enumFrom n l).map (fun p =>
        ({ id := p.1 + 1, input := p.2.input,
           expected_output := p.2.expected_output,
           weight := p.2.weight } : TestCase))).map (fun tc => tc.expected_output)
          = l.map (fun tc => tc.expected_output)) ∧
     (((List.enumFrom n l).map (fun p =>
        ({ id := p.1 + 1, input := p.2.input,
           expected_output := p.2.expected_output,
           weight := p.2.weight } : TestCase))).map (fun tc => tc.weight)
          = l.map (fun tc => tc.weight))) := by
  induction l with
  | nil => intro n; exact ⟨rfl, rfl, rfl, rfl⟩
  | cons tc rest ih =>
    intro n
    obtain ⟨ha, hb, hc, hd⟩ := ih (n + 1)
    refine ⟨?_, ?_, ?_, ?_⟩ <;>
      simp [List.enumFrom, List.range', ha, hb, hc, hd, Nat.add_assoc,
        Nat.add_comm 1 n]

/-! ## C8 — the per-test size limit is 10 000 bytes, not 10 KiB (corrected) -/

/-- A 10 001-byte ASCII input: within 10 KiB (10 240 bytes) but over the
code's 10 000-byte limit. -/
def bigInputC8 : String := String.mk (List.replicate 10001 'a')

/-- Submission payload for the C8 counterexample: valid in every respect
except that its only test case's input is 10 001 bytes. -/
def pC8 : SubmitRequest :=
  { language := Language.python, source_code := "print(1)",
    test_cases := [{ input := bigInputC8, expected_output := "x", weight := 10 }],
    timeout_ms := 5000 }

/-- Folding the byte-size accumulator over `n` copies of an ASCII character
adds `n`. -/
theorem utf8Len_replicate_a (n : Nat) :
    utf8Len (String.mk (List.replicate n 'a')) = n := by
  suffices h : ∀ m acc, List.foldl (fun k c => k + charUtf8Size c) acc
      (List.replicate m 'a') = acc + m by
    simpa [utf8Len] using h n 0
  intro m
  induction m with
  | zero => intro acc; simp
  | succ m ih =>
    intro acc
    rw [List.replicate_succ, List.foldl_cons, ih]
    simp [charUtf8Size]
    omega

/-- Claim C8 (counterexample). The payload `pC8` satisfies the claim's premise —
every test-case `input` and `expected_output` is at most 10 KiB (10 240
bytes) and all other validations pass — yet `submit_job` rejects it with 400,
because the code's limit is `MAX_INPUT_SIZE = 10_000` bytes and the input is
10 001 bytes. -/
theorem submit_within_10kib_rejected_counterexample :
    utf8Len bigInputC8 = 10001 ∧
    (∀ tc ∈ pC8.test_cases,
      utf8Len tc.input ≤ 10240 ∧ utf8Len tc.expected_output ≤ 10240) ∧
    pC8.test_cases ≠ [] ∧ pC8.test_cases.length ≤ 100 ∧
    utf8Len pC8.source_code ≤ 100000 ∧ rustTrim pC8.source_code ≠ "" ∧
    1 ≤ pC8.timeout_ms ∧ pC8.timeout_ms ≤ 60000 ∧
    submitStatus (submit_job 0 pC8 true) = 400 := by
  have hlen : utf8Len bigInputC8 = 10001 := utf8Len_replicate_a 10001
  have hval : validateSubmit pC8 = some (RejectReason.inputTooLarge 0) := by
    have hfsv : firstSizeViolation pC8.test_cases 0 =
        some (RejectReason.inputTooLarge 0) := by
      rw [show pC8.test_cases =
            [{ input := bigInputC8, expected_output := "x", weight := 10 }] from rfl,
        firstSizeViolation, if_pos (by show 10000 < utf8Len bigInputC8; omega)]
    rw [validateSubmit, if_neg (by decide), if_neg (by decide),
      if_neg (by decide), if_neg (by decide), hfsv]
  refine ⟨hlen, ?_, by decide, by decide, by decide, by decide, by decide,
    by decide, ?_⟩
  · intro tc htc
    rcases List.mem_cons.mp htc with heq | hmem
    · subst heq
      refine ⟨?_, by decide⟩
      show utf8Len bigInputC8 ≤ 10240
      omega
    · simp at hmem
  · rw [submit_job, hval]
    rfl

/-- Claim C8 (amended). With the limit stated as the code's 10 000 bytes: a
submission whose every test-case `input` and `expected_output` is at most
10 000 bytes, and which passes the other validations, is accepted with 201
(given a successful enqueue); a submission with some `input` or
`expected_output` over 10 000 bytes is rejected with 400. -/
theorem submit_size_limit_10000_bytes (payload : SubmitRequest) (job_id : Nat) :
    ((payload.test_cases ≠ [] ∧ payload.test_cases.length ≤ 100 ∧
      utf8Len payload.source_code ≤ 100000 ∧ rustTrim payload.source_code ≠ "" ∧
      1 ≤ payload.timeout_ms ∧ payload.timeout_ms ≤ 60000 ∧
      (∀ tc ∈ payload.test_cases,
        utf8Len tc.input ≤ 10000 ∧ utf8Len tc.expected_output ≤ 10000)) →
      submitStatus (submit_job job_id payload true) = 201) ∧
    (∀ pushOk, (∃ tc ∈ payload.test_cases,
        10000 < utf8Len tc.input ∨ 10000 < utf8Len tc.expected_output) →
      submitStatus (submit_job job_id payload pushOk) = 400) := by
  constructor
  · rintro ⟨hne, h100, hsrc, htrim, ht1, ht2, hsizes⟩
    have hempty : payload.test_cases.isEmpty = false := by
      cases h : payload.test_cases with
      | nil => exact absurd h hne
      | cons a l => rfl
    have hval : validateSubmit payload = none := by
      rw [validateSubmit, if_neg (by simp [hempty]), if_neg (by omega),
        if_neg (by omega), if_neg htrim,
        firstSizeViolation_none payload.test_cases hsizes 0]
      exact if_neg (by omega)
    rw [submit_job, hval]
    rfl
  · intro pushOk hex
    have hval : ∃ r, validateSubmit payload = some r := by
      rw [validateSubmit]
      split
      · exact ⟨_, rfl⟩
      · split
        · exact ⟨_, rfl⟩
        · split
          · exact ⟨_, rfl⟩
          · split
            · exact ⟨_, rfl⟩
            · obtain ⟨r, hr⟩ := firstSizeViolation_some payload.test_cases hex 0
              rw [hr]
              exact ⟨r, rfl⟩
    obtain ⟨r, hr⟩ := hval
    rw [submit_job, hr]
    rfl

/-- A small valid payload for the C8 witness (201 side). -/
def pC8ok : SubmitRequest :=
  { language := Language.rust, source_code := "fn main() \x7b\x7d",
    test_cases := [{ input := "1", expected_output := "2", weight := 10 }],
    timeout_ms := 5000 }

/-- A payload whose expected output is 10 001 bytes (400 side). -/
def pC8bad : SubmitRequest :=
  { language := Language.rust, source_code := "fn main() \x7b\x7d",
    test_cases := [{ input := "1", expected_output := bigInputC8, weight := 10 }],
    timeout_ms := 5000 }

/-- Witness for the amended C8: `pC8ok` is accepted with 201 and `pC8bad` is
rejected with 400. -/
theorem submit_size_limit_10000_bytes_witness :
    submitStatus (submit_job 0 pC8ok true) = 201 ∧
    submitStatus (submit_job 1 pC8bad true) = 400 :=
  ⟨(submit_size_limit_10000_bytes pC8ok 0).1
     ⟨by decide, by decide, by decide, by decide, by decide, by decide,
      by decide⟩,
   (submit_size_limit_10000_bytes pC8bad 1).2 true
     ⟨{ input := "1", expected_output := bigInputC8, weight := 10 },
      List.mem_cons_self _ _, Or.inr (by
        have h : utf8Len bigInputC8 = 10001 := utf8Len_replicate_a 10001
        show 10000 < utf8Len bigInputC8
        omega)⟩⟩

/-! ## C9 — sequential test ids from 1 -/

/-- Claim C9. For every accepted submission, the enqueued job's test cases carry
`test_id`s `1, 2, …, n` in the order the test cases were given, with `input`,
`expected_output` and `weight` preserved (no client-supplied identifier is
even part of the request type). -/
theorem submitted_test_ids_sequential (payload : SubmitRequest) (job_id : Nat)
    (pushOk : Bool) (job : JobRequest)
    (h : submit_job job_id payload pushOk = SubmitOutcome.created job) :
    job.test_cases.map (fun tc => tc.id)
        = List.range' 1 payload.test_cases.length ∧
    job.test_cases.map (fun tc => tc.input)
        = payload.test_cases.map (fun tc => tc.input) ∧
    job.test_cases.map (fun tc => tc.expected_output)
        = payload.test_cases.map (fun tc => tc.expected_output) ∧
    job.test_cases.map (fun tc => tc.weight)
        = payload.test_cases.map (fun tc => tc.weight) := by
  unfold submit_job at h
  cases hv : validateSubmit payload with
  | some r => rw [hv] at h; cases h
  | none =>
    rw [hv] at h
    cases pushOk with
    | false => simp at h
    | true =>
      simp only [if_true, SubmitOutcome.created.injEq] at h
      subst h
      have := enumFrom_toTestCases payload.test_cases 0
      simpa [toTestCases, List.enum] using this

/-- Payload for the C9 witness: three test cases. -/
def pC9 : SubmitRequest :=
  { language := Language.python, source_code := "print(1)",
    test_cases := [{ input := "a", expected_output := "b", weight := 1 },
                   { input := "c", expected_output := "d", weight := 2 },
                   { input := "e", expected_output := "f", weight := 3 }],
    timeout_ms := 5000 }

/-- The job `submit_job` mints for `pC9` (job id 9). -/
def jobC9 : JobRequest :=
  { id := 9, language := Language.python, source_code := "print(1)",
    test_cases := [{ id := 1, input := "a", expected_output := "b", weight := 1 },
                   { id := 2, input := "c", expected_output := "d", weight := 2 },
                   { id := 3, input := "e", expected_output := "f", weight := 3 }],
    timeout_ms := 5000, metadata := JobMetadata.default }

/-- Witness for C9 at the concrete payload `pC9`. -/
theorem submitted_test_ids_sequential_witness :
    submit_job 9 pC9 true = SubmitOutcome.created jobC9 ∧
    (jobC9.test_cases.map (fun tc => tc.id)
        = List.range' 1 pC9.test_cases.length ∧
     jobC9.test_cases.map (fun tc => tc.input)
        = pC9.test_cases.map (fun tc => tc.input) ∧
     jobC9.test_cases.map (fun tc => tc.expected_output)
        = pC9.test_cases.map (fun tc => tc.expected_output) ∧
     jobC9.test_cases.map (fun tc => tc.weight)
        = pC9.test_cases.map (fun tc => tc.weight)) :=
  ⟨by decide, submitted_test_ids_sequential pC9 9 true jobC9 (by decide)⟩

end Optimus
